import Mathlib

/-!
Shallow embedding of the CometMock block-production engine and its RPC route
layer, together with theorems checking the repository's natural-language
specification against the code.

Conventions of the embedding:
* Go `time.Time` / `time.Duration` values are nanosecond counts, as `Int`.
* Byte strings are `List Nat`.
* Validator and network addresses are `Nat` identifiers.
* Go functions that can return an error are embedded as `Except String`;
  engine operations that can additionally `panic` use the three-way `Outcome`.
* Calls to the backend applications (ABCI clients) are embedded by giving each
  client a per-round response for every call kind; a Go error or timeout is the
  `.error` case of that response.
* Library code from CometBFT (not part of this repository's sources) is
  embedded by definitions whose doc comment starts with `Modelled`.
-/

namespace CometMock

abbrev Address := Nat

abbrev Bytes := List Nat

/-- One entry of a CometBFT validator set: address, voting power and the
proposer-priority bookkeeping value. -/
structure Validator where
  address : Address
  power : Int
  priority : Int
deriving DecidableEq, Repr

/-- Total voting power of a validator set (library `TotalVotingPower`). -/
def totalPower (vs : List Validator) : Int :=
  (vs.map fun v => v.power).sum

/-- Block identifier: block hash plus part-set header, as in `types.BlockID`. -/
structure BlockID where
  hash : Nat
  partSetHeader : Nat
deriving DecidableEq, Repr

/-- The consensus parameters the engine reads: the app version, the allowed
validator public-key types, and the height at which vote extensions become
enabled. -/
structure ConsensusParams where
  appVersion : Nat
  pubKeyTypes : List String
  voteExtensionsEnableHeight : Int
deriving DecidableEq, Repr

/-- The chain state tracked by the engine (`state.State` fields used by the
sources). `appVersionState` is `Version.Consensus.App`. -/
structure State where
  chainID : String
  initialHeight : Int
  lastBlockHeight : Int
  lastBlockID : BlockID
  lastBlockTime : Int
  validators : List Validator
  nextValidators : List Validator
  lastValidators : List Validator
  lastHeightValidatorsChanged : Int
  consensusParams : ConsensusParams
  lastHeightConsensusParamsChanged : Int
  lastResultsHash : Nat
  appVersionState : Nat
  appHash : Bytes
deriving DecidableEq, Repr

/-- Block header; the fields read or written by the sources. -/
structure Header where
  height : Int
  time : Int
  chainID : String
  proposerAddress : Address
  appHash : Bytes
  lastBlockID : BlockID
deriving DecidableEq, Repr

/-- The zero `types.Header` (all fields at their Go zero values). -/
def Header.zero : Header :=
  { height := 0, time := 0, chainID := "", proposerAddress := 0,
    appHash := [], lastBlockID := { hash := 0, partSetHeader := 0 } }

/-- A precommit/prevote. The signature is embedded as the signing payload
`(key, chainID, height, round, blockID)` produced by the validator's key. -/
structure Vote where
  validatorAddress : Address
  validatorIndex : Int
  height : Int
  round : Int
  timestamp : Int
  voteType : Nat
  blockID : BlockID
  extension : Bytes
  signature : Option (Nat × String × Int × Int × BlockID)
deriving DecidableEq, Repr

/-- The proto enum value for a precommit (`cmttypes.PrecommitType`). -/
def precommitType : Nat := 2

/-- A commit: the aggregated precommits for one block. -/
structure Commit where
  height : Int
  round : Int
  blockID : BlockID
  votes : List Vote
deriving DecidableEq, Repr

/-- A commit whose votes still carry their extensions
(`types.ExtendedCommit`). -/
structure ExtendedCommit where
  height : Int
  round : Int
  blockID : BlockID
  votes : List Vote
deriving DecidableEq, Repr

/-- Embeds `ExtendedCommit.ToCommit`: drop the vote extensions. -/
def ExtendedCommit.toCommit (ec : ExtendedCommit) : Commit :=
  { height := ec.height, round := ec.round, blockID := ec.blockID,
    votes := ec.votes.map fun v => { v with extension := [] } }

/-- Evidence of a double vote (`types.DuplicateVoteEvidence`). -/
structure DuplicateVoteEvidence where
  voteA : Vote
  voteB : Vote
  totalVotingPower : Int
  validatorPower : Int
  timestamp : Int
deriving DecidableEq, Repr

/-- A header together with the commit for it (`types.SignedHeader`). -/
structure SignedHeader where
  header : Header
  commit : Commit
deriving DecidableEq, Repr

/-- A signed header plus the validator set (`types.LightBlock`). -/
structure LightBlock where
  signedHeader : SignedHeader
  validatorSet : List Validator
deriving DecidableEq, Repr

/-- Evidence of a light-client attack (`types.LightClientAttackEvidence`). -/
structure LightClientAttackEvidence where
  totalVotingPower : Int
  timestamp : Int
  byzantineValidators : List Validator
  commonHeight : Int
  conflictingBlock : LightBlock
deriving DecidableEq, Repr

/-- The evidence union embedded in a block. -/
inductive Evidence where
  | dup (e : DuplicateVoteEvidence)
  | lca (e : LightClientAttackEvidence)
deriving DecidableEq, Repr

/-- A block. `lastCommit` is a Go pointer, hence optional (`nil` possible). -/
structure Block where
  header : Header
  txs : List Bytes
  evidence : List Evidence
  lastCommit : Option Commit
deriving DecidableEq, Repr

/-! ## RPC route layer (`cometmock/rpc_server/routes.go`) -/

def defaultPerPage : Int := 30

def maxPerPage : Int := 100

/-- Embeds `validatePerPage`. -/
def validatePerPage (perPagePtr : Option Int) : Int :=
  match perPagePtr with
  | none => defaultPerPage
  | some perPage =>
    if perPage < 1 then defaultPerPage
    else if perPage > maxPerPage then maxPerPage
    else perPage

/-- Embeds `validatePage`. Go's `(totalCount - 1) / perPage` truncates toward
zero; for `totalCount ≥ 0` and `perPage ≥ 1` that agrees with Lean's
saturating `Nat` subtraction followed by `Nat` division (both give `0` when
`totalCount = 0`, except `perPage = 1` where Go corrects its `0` result to `1`
via the `pages == 0` branch and the `Nat` form is `1` directly). The Go
`panic` on a non-positive `perPage` is a distinguished error. -/
def validatePage (pagePtr : Option Int) (perPage : Int) (totalCount : Nat) :
    Except String Int :=
  if perPage < 1 then
    .error "panic: zero or negative perPage"
  else
    match pagePtr with
    | none => .ok 1
    | some page =>
      let pages : Int := (((totalCount - 1) / perPage.toNat : Nat) : Int) + 1
      let pages := if pages = 0 then 1 else pages
      if page ≤ 0 ∨ page > pages then
        .error s!"page should be within [1, {pages}] range, given {page}"
      else
        .ok page

/-- Embeds `validateSkipCount`. -/
def validateSkipCount (page perPage : Int) : Int :=
  let skipCount := (page - 1) * perPage
  if skipCount < 0 then 0 else skipCount

/-- Result of the `validators` RPC route (`ctypes.ResultValidators`). -/
structure ResultValidators where
  blockHeight : Int
  validators : List Validator
  count : Nat
  total : Nat
deriving DecidableEq, Repr

/-- Embeds the `Validators` RPC route. It reads only
`GlobalClient.CurState`, passed here as `cur`. -/
def Validators (cur : State) (heightPtr : Option Int)
    (pagePtr perPagePtr : Option Int) : Except String ResultValidators :=
  if heightPtr.isSome then
    .error "height parameter is not supported, use version of the function without height"
  else
    let height := cur.lastBlockHeight
    let validators := cur.lastValidators
    let totalCount := validators.length
    let perPage := validatePerPage perPagePtr
    match validatePage pagePtr perPage totalCount with
    | .error e => .error e
    | .ok page =>
      let skipCount := validateSkipCount page perPage
      let v := (validators.drop skipCount.toNat).take
        (min perPage ((totalCount : Int) - skipCount)).toNat
      .ok { blockHeight := height, validators := v, count := v.length,
            total := totalCount }

/-- Result of the `block` RPC route (`ctypes.ResultBlock`). -/
structure ResultBlock where
  blockID : BlockID
  block : Block
deriving DecidableEq, Repr

/-- Embeds the `Block` RPC route (named `BlockRoute` because `Block` is the
block type). It reads only `GlobalClient.CurState`, passed here as `cur`. -/
def BlockRoute (cur : State) (heightPtr : Option Int) :
    Except String ResultBlock :=
  if heightPtr.isSome then
    .error "height parameter is not supported, use version of the function without height"
  else
    .ok { blockID := cur.lastBlockID,
          block := { header := { Header.zero with height := cur.lastBlockHeight },
                     txs := [], evidence := [], lastCommit := none } }

/-! ## Time offset (`IncrementTimeOffset`) -/

/-- Embeds `IncrementTimeOffset` as a transformer of the stored offset:
the pair is (returned error or unit, offset stored after the call). -/
def IncrementTimeOffset (timeOffset additionalOffset : Int) :
    Except String Unit × Int :=
  if additionalOffset < 0 then
    (.error "time offset cannot be decremented, please provide a positive offset",
     timeOffset)
  else
    (.ok (), timeOffset + additionalOffset)

/-! ## State transition function (`UpdateState` and helpers) -/

/-- A validator public key as carried by an ABCI validator update; `valid`
records whether the proto decoding (`PubKeyFromProto`) succeeds, and `keyId`
determines the validator address derived from the key. -/
structure PubKey where
  keyType : String
  keyId : Nat
  valid : Bool
deriving DecidableEq, Repr

/-- An `abcitypes.ValidatorUpdate`: a public key and a voting power. -/
structure ValidatorUpdate where
  pubKey : PubKey
  power : Int
deriving DecidableEq, Repr

/-- A consensus-parameter update (`ConsensusParamUpdates`); absent fields keep
their previous value. -/
structure ParamsUpdate where
  appVersion : Option Nat
  pubKeyTypes : Option (List String)
  voteExtensionsEnableHeight : Option Int
deriving DecidableEq, Repr

/-- Modelled from CometBFT `ConsensusParams.Update` (library, not under src):
merge the update into the parameters field by field. -/
def ConsensusParams.update (p : ConsensusParams) (u : ParamsUpdate) :
    ConsensusParams :=
  { appVersion := u.appVersion.getD p.appVersion,
    pubKeyTypes := u.pubKeyTypes.getD p.pubKeyTypes,
    voteExtensionsEnableHeight :=
      u.voteExtensionsEnableHeight.getD p.voteExtensionsEnableHeight }

/-- Modelled from CometBFT `ConsensusParams.ValidateBasic` (library, not under
src): the parameters must allow at least one public-key type. -/
def ConsensusParams.validateBasic (p : ConsensusParams) : Except String Unit :=
  if p.pubKeyTypes = [] then .error "the parameter PubKeyTypes must not be empty"
  else .ok ()

/-- An `abcitypes.ResponseFinalizeBlock` (the fields the engine reads). -/
structure ResponseFinalizeBlock where
  appHash : Bytes
  validatorUpdates : List ValidatorUpdate
  consensusParamUpdates : Option ParamsUpdate
  txResults : List Nat
deriving DecidableEq, Repr

/-- Modelled from CometBFT `state.TxResultsHash` (library, not under src): an
abstract digest of the ordered per-transaction results. -/
def txResultsHash (results : List Nat) : Nat :=
  results.foldl (fun h r => h * 31 + r + 1) 7

/-- Modelled from the spec: applying one validator change after another —
a zero-power change deletes the validator, a positive-power change adds or
replaces it. -/
def applyChanges (vals : List Validator) : List Validator → List Validator
  | [] => vals
  | c :: rest =>
    if c.power = 0 then
      applyChanges (vals.filter fun v => v.address ≠ c.address) rest
    else
      applyChanges ((vals.filter fun v => v.address ≠ c.address) ++ [c]) rest

/-- Modelled from the spec and CometBFT `ValidatorSet.UpdateWithChangeSet`
(library, not under src): apply a validator change set; the library rejects
ill-formed change sets, modelled here as rejecting duplicate addresses. -/
def updateWithChangeSet (vals changes : List Validator) :
    Except String (List Validator) :=
  if (changes.map fun v => v.address).Nodup then .ok (applyChanges vals changes)
  else .error "duplicate entry in changes"

/-- Modelled from the spec: proposer-priority bookkeeping advances every
height; only the priorities change, addresses and powers are untouched
(CometBFT `IncrementProposerPriority`, library, not under src). -/
def incrementProposerPriority (vals : List Validator) : List Validator :=
  vals.map fun v => { v with priority := v.priority + v.power }

/-- Embeds `validateValidatorUpdates` from the source: negative power is
rejected; zero power (deletion) skips the key checks; otherwise the key must
decode and its type must be allowed by the consensus parameters. -/
def validateValidatorUpdates (abciUpdates : List ValidatorUpdate)
    (pubKeyTypes : List String) : Except String Unit :=
  match abciUpdates with
  | [] => .ok ()
  | u :: rest =>
    if u.power < 0 then
      .error "voting power cannot be negative"
    else if u.power = 0 then
      validateValidatorUpdates rest pubKeyTypes
    else if ¬ u.pubKey.valid then
      .error "could not decode public key"
    else if ¬ pubKeyTypes.contains u.pubKey.keyType then
      .error "validator is using an unsupported pubkey type"
    else
      validateValidatorUpdates rest pubKeyTypes

/-- Modelled from CometBFT `PB2TM.ValidatorUpdates` (library, not under src):
each ABCI update becomes a validator whose address is derived from its public
key; decoding failures surface as errors. -/
def pb2tmValidatorUpdates (abciUpdates : List ValidatorUpdate) :
    Except String (List Validator) :=
  if abciUpdates.all fun u => u.pubKey.valid then
    .ok (abciUpdates.map fun u =>
      { address := u.pubKey.keyId, power := u.power, priority := 0 })
  else .error "could not decode public key"

/-- The validator-set part of `UpdateState` (source lines building `nValSet`
and `lastHeightValsChanged`): no updates leave the copied NextValidators and
the old bookkeeping height; otherwise the change set is applied and the
bookkeeping height becomes `blockHeader.Height + 1 + 1`. -/
def updateStateValStep (curState : State) (blockHeader : Header)
    (validatorUpdates : List Validator) :
    Except String (List Validator × Int) :=
  if validatorUpdates.isEmpty then
    Except.ok (curState.nextValidators, curState.lastHeightValidatorsChanged)
  else
    match updateWithChangeSet curState.nextValidators validatorUpdates with
    | Except.error e => Except.error s!"error changing validator set: {e}"
    | Except.ok updated => Except.ok (updated, blockHeader.height + 1 + 1)

/-- The consensus-params part of `UpdateState` (source lines building
`nextParams` and `lastHeightParamsChanged`): an update present in the
FinalizeBlock response is merged, validated, and booked for
`blockHeader.Height + 1`, also refreshing `Version.Consensus.App`. -/
def updateStateParamStep (curState : State) (blockHeader : Header)
    (finalizeBlockRes : ResponseFinalizeBlock) :
    Except String (ConsensusParams × Int × Nat) :=
  match finalizeBlockRes.consensusParamUpdates with
  | none =>
    Except.ok (curState.consensusParams,
               curState.lastHeightConsensusParamsChanged,
               curState.appVersionState)
  | some u =>
    let nextParams := curState.consensusParams.update u
    match nextParams.validateBasic with
    | Except.error e => Except.error s!"error updating consensus params: {e}"
    | Except.ok _ =>
      Except.ok (nextParams, blockHeader.height + 1, nextParams.appVersion)

/-- Embeds `UpdateState` from the source: computes the next chain state from
the previous state, the block id and header, the FinalizeBlock response and
the already-converted validator updates; the two sequential computations with
early error returns are `updateStateValStep` and `updateStateParamStep`. -/
def UpdateState (curState : State) (blockId : BlockID) (blockHeader : Header)
    (finalizeBlockRes : ResponseFinalizeBlock)
    (validatorUpdates : List Validator) : Except String State :=
  match updateStateValStep curState blockHeader validatorUpdates with
  | Except.error e => Except.error e
  | Except.ok (nValSet0, lastHeightValsChanged) =>
    let nValSet := incrementProposerPriority nValSet0
    match updateStateParamStep curState blockHeader finalizeBlockRes with
    | Except.error e => Except.error e
    | Except.ok (nextParams, lastHeightParamsChanged, nextAppVersion) =>
      Except.ok
        { chainID := curState.chainID,
          initialHeight := curState.initialHeight,
          lastBlockHeight := blockHeader.height,
          lastBlockID := blockId,
          lastBlockTime := blockHeader.time,
          validators := curState.nextValidators,
          nextValidators := nValSet,
          lastValidators := curState.validators,
          lastHeightValidatorsChanged := lastHeightValsChanged,
          consensusParams := nextParams,
          lastHeightConsensusParamsChanged := lastHeightParamsChanged,
          lastResultsHash := txResultsHash finalizeBlockRes.txResults,
          appVersionState := nextAppVersion,
          appHash := [] }

/-! ## Engine data model (`cometmock/abci_client`) -/

/-- Outcome of an engine operation: a value, a returned Go error, or a Go
panic (the process dies; the function never returns). -/
inductive Outcome (R : Type) where
  | ok (r : R)
  | err (e : String)
  | panicked (e : String)
deriving DecidableEq, Repr

def Outcome.map {α β : Type} (f : α → β) : Outcome α → Outcome β
  | .ok r => .ok (f r)
  | .err e => .err e
  | .panicked e => .panicked e

/-- Lookup in an association list, modelling a Go map read. -/
def assocLookup {α β : Type} [BEq α] (l : List (α × β)) (x : α) : Option β :=
  (l.find? fun p => p.1 == x).map fun p => p.2

/-- Decidable equality for `Except`, so that concrete engine runs can be
checked by `decide`. -/
instance instDecEqExcept {ε α : Type} [DecidableEq ε] [DecidableEq α] :
    DecidableEq (Except ε α)
  | Except.error a, Except.error b =>
    if h : a = b then .isTrue (h ▸ rfl)
    else .isFalse fun hh => h (Except.error.inj hh)
  | Except.error _, Except.ok _ => .isFalse fun hh => Except.noConfusion hh
  | Except.ok _, Except.error _ => .isFalse fun hh => Except.noConfusion hh
  | Except.ok a, Except.ok b =>
    if h : a = b then .isTrue (h ▸ rfl)
    else .isFalse fun hh => h (Except.ok.inj hh)

/-- The misbehaviour kinds (`MisbehaviourType` constants). -/
inductive MisbehaviourType where
  | DuplicateVote
  | Lunatic
  | Amnesia
  | Equivocation
deriving DecidableEq, Repr

/-- One validator backend (`AbciCounterpartyClient`): its identity and
connection flag, plus the response its application gives to each kind of ABCI
call in the round under consideration (a Go error or timeout is the `.error`
case). -/
structure AbciCounterpartyClient where
  networkAddress : Nat
  validatorAddress : Address
  privValKey : Nat
  isConnected : Bool
  checkTxResp : Except String Nat
  prepareProposalResp : Except String (List Bytes)
  processProposalResp : Except String Bool
  extendVoteResp : Except String Bytes
  verifyVoteExtensionResp : Except String Bool
  finalizeBlockResp : Except String ResponseFinalizeBlock
  commitResp : Except String Nat
  infoResp : Except String Nat
deriving DecidableEq, Repr

/-- The engine (`AbciClient`): clients, tracked state, and the outcomes of the
storage collaborator's operations. `storedStates` models `Storage.GetState`,
`updateStoresResp` the outcome of `Storage.UpdateStores`. -/
structure AbciClient where
  clients : List AbciCounterpartyClient
  curState : State
  lastBlock : Block
  lastCommit : ExtendedCommit
  privValidators : List (Address × Nat)
  signingStatus : List (Address × Bool)
  timeOffset : Int
  errorOnUnequalResponses : Bool
  storedStates : List (Int × State)
  updateStoresResp : Except String Unit
deriving DecidableEq, Repr

/-- Models `Storage.GetState`: look up the historical state for a height. -/
def AbciClient.getState (a : AbciClient) (h : Int) : Except String State :=
  match assocLookup a.storedStates h with
  | some s => Except.ok s
  | none => Except.error "no state stored for height"

/-- Modelled from `utils.GetBlockIdFromBlock` (not under src): an abstract
content hash of the header plus the part-set header. -/
def headerHash (h : Header) : Nat :=
  h.height.natAbs * 31 + h.time.natAbs * 7 + h.proposerAddress * 3
    + h.appHash.length + h.lastBlockID.hash

/-- Modelled from `utils.GetBlockIdFromBlock` (not under src). -/
def blockIdOf (b : Block) : BlockID :=
  { hash := headerHash b.header, partSetHeader := b.txs.length + 1 }

/-- Models `PrivValidator.SignVote`: attach the signing payload produced by
the validator's key over the chain id and the vote's core fields. -/
def signVote (key : Nat) (chainID : String) (v : Vote) : Vote :=
  { v with signature := some (key, chainID, v.height, v.round, v.blockID) }

/-- Modelled from the spec and `types.Vote.ValidateBasic` (library, not under
src): basic vote well-formedness — a known vote type, non-negative height and
validator index, and a present signature. -/
def Vote.validateBasic (v : Vote) : Except String Unit :=
  if v.voteType ≠ 1 ∧ v.voteType ≠ 2 then Except.error "invalid Type"
  else if v.height < 0 then Except.error "negative Height"
  else if v.validatorIndex < 0 then Except.error "negative ValidatorIndex"
  else if v.signature.isNone then Except.error "signature is missing"
  else Except.ok ()

/-- Models `ValidatorSet.GetByAddress`: index of the validator (or -1) and
the validator itself (or none, a nil pointer in Go). -/
def getByAddress (vals : List Validator) (addr : Address) :
    Int × Option Validator :=
  match vals.findIdx? (fun v => v.address == addr) with
  | some i => ((i : Int), vals[i]?)
  | none => (-1, none)

/-- Embeds `ConstructDuplicateVoteEvidence`. `now1` and `now2` are the two
`time.Now()` readings taken while building the two votes. A missing priv
validator or a validator absent from the last state is a Go nil dereference,
hence a panic. -/
def ConstructDuplicateVoteEvidence (a : AbciClient) (v : Validator)
    (now1 now2 : Int) : Outcome DuplicateVoteEvidence :=
  match assocLookup a.privValidators v.address with
  | none => .panicked "SignVote on nil priv validator"
  | some key =>
    let lastBlock := a.lastBlock
    let blockId := blockIdOf lastBlock
    match a.getState lastBlock.header.height with
    | Except.error e => .err e
    | Except.ok lastState =>
      match getByAddress lastState.validators v.address with
      | (_, none) => .panicked "VotingPower of nil validator"
      | (index, some valInLastState) =>
        let voteA : Vote :=
          { validatorAddress := v.address, validatorIndex := index,
            height := lastBlock.header.height, round := 1,
            timestamp := now1 + a.timeOffset, voteType := precommitType,
            blockID := blockId, extension := [], signature := none }
        let voteB : Vote :=
          { validatorAddress := v.address, validatorIndex := index,
            height := lastBlock.header.height, round := 2,
            timestamp := now2 + a.timeOffset, voteType := precommitType,
            blockID := blockId, extension := [], signature := none }
        let voteA := signVote key a.curState.chainID voteA
        let voteB := signVote key a.curState.chainID voteB
        match voteA.validateBasic with
        | Except.error e => .err e
        | Except.ok _ =>
          match voteB.validateBasic with
          | Except.error e => .err e
          | Except.ok _ =>
            .ok { voteA := voteA, voteB := voteB,
                  totalVotingPower := totalPower lastState.validators,
                  validatorPower := valInLastState.power,
                  timestamp := lastBlock.header.time }

/-- The invalid app hash the Lunatic variant writes, byte for byte. -/
def someOtherAppHash : Bytes := "some other app hash".data.map Char.toNat

/-- One second, in nanoseconds. -/
def oneSecond : Int := 1000000000

/-- Embeds `ConstructLightClientAttackEvidence`: deep-copy the last block
(a value copy here), mutate it according to the misbehaviour kind, and wrap
it in a signed-header/light-block pair carrying the current validator set. -/
def ConstructLightClientAttackEvidence (a : AbciClient) (v : Validator)
    (misbehaviourType : MisbehaviourType) :
    Outcome LightClientAttackEvidence :=
  let lastBlock := a.lastBlock
  match a.getState lastBlock.header.height with
  | Except.error e => .err e
  | Except.ok lastState =>
    let cp := lastBlock
    match (match misbehaviourType with
           | .Lunatic =>
             some { cp with header := { cp.header with appHash := someOtherAppHash } }
           | .Amnesia => some cp
           | .Equivocation =>
             some { cp with header := { cp.header with time := cp.header.time + oneSecond } }
           | .DuplicateVote => none : Option Block) with
    | none => .err "unknown misbehaviour type for light client misbehaviour"
    | some conflictingBlock =>
      let signedHeader : SignedHeader :=
        { header := conflictingBlock.header, commit := a.lastCommit.toCommit }
      let conflictingLightBlock : LightBlock :=
        { signedHeader := signedHeader, validatorSet := a.curState.validators }
      .ok { totalVotingPower := totalPower lastState.validators,
            timestamp := lastBlock.header.time,
            byzantineValidators := [v],
            commonHeight := lastBlock.header.height - 1,
            conflictingBlock := conflictingLightBlock }

/-! ## Peer dispatch and liveness layer -/

/-- The Go response-equality loop: every entry must equal `responses[0]`. -/
def responsesAllEqual {R : Type} [DecidableEq R] : List R → Bool
  | [] => true
  | r :: rest => rest.all fun x => x = r

/-- The common loop of `SendCheckTx`, `SendFinalizeBlock`, `SendCommit` and
`SendAbciInfo`: every client in `a.Clients` is called in order — the
`isConnected` flag is not consulted — and the first error aborts. The second
component is the list of network addresses actually contacted. -/
def fanoutAll {R : Type} (clients : List AbciCounterpartyClient)
    (resp : AbciCounterpartyClient → Except String R) :
    Except String (List R) × List Nat :=
  match clients with
  | [] => (Except.ok [], [])
  | c :: rest =>
    match resp c with
    | Except.error e => (Except.error e, [c.networkAddress])
    | Except.ok r =>
      let r2 := fanoutAll rest resp
      (match r2.1 with
       | Except.error e => Except.error e
       | Except.ok rs => Except.ok (r :: rs),
       c.networkAddress :: r2.2)

/-- Wraps a fan-out as the Go `Send*` functions do: propagate the first
client error, optionally require equal responses, and return `responses[0]`
(a Go index panic when there are no clients). -/
def sendFanout {R : Type} [DecidableEq R] (a : AbciClient)
    (resp : AbciCounterpartyClient → Except String R) : Outcome R :=
  match (fanoutAll a.clients resp).1 with
  | Except.error e => .err e
  | Except.ok rs =>
    if a.errorOnUnequalResponses && !(responsesAllEqual rs) then
      .err "responses are not all equal"
    else
      match rs with
      | [] => .panicked "index out of range: responses is empty"
      | r :: _ => .ok r

/-- Embeds `SendCheckTx` (the transaction itself only shapes the request; the
response is the backend's oracle). -/
def SendCheckTx (a : AbciClient) (_tx : Bytes) : Outcome Nat :=
  sendFanout a fun c => c.checkTxResp

/-- Embeds `SendFinalizeBlock`. -/
def SendFinalizeBlock (a : AbciClient) (_block : Block) :
    Outcome ResponseFinalizeBlock :=
  sendFanout a fun c => c.finalizeBlockResp

/-- Embeds `SendCommit`. -/
def SendCommit (a : AbciClient) : Outcome Nat :=
  sendFanout a fun c => c.commitResp

/-- Embeds `SendAbciInfo`. -/
def SendAbciInfo (a : AbciClient) : Outcome Nat :=
  sendFanout a fun c => c.infoResp

/-- The network addresses the `CheckTx` fan-out contacts. -/
def SendCheckTxTrace (a : AbciClient) : List Nat :=
  (fanoutAll a.clients fun c => c.checkTxResp).2

/-- The network addresses the `FinalizeBlock` fan-out contacts. -/
def SendFinalizeBlockTrace (a : AbciClient) : List Nat :=
  (fanoutAll a.clients fun c => c.finalizeBlockResp).2

/-- The network addresses the `Commit` fan-out contacts. -/
def SendCommitTrace (a : AbciClient) : List Nat :=
  (fanoutAll a.clients fun c => c.commitResp).2

/-- The network addresses the `Info` fan-out contacts. -/
def SendAbciInfoTrace (a : AbciClient) : List Nat :=
  (fanoutAll a.clients fun c => c.infoResp).2

/-- Embeds `callClientsWithTimeout`: skip clients whose `isConnected` flag is
false without calling them; a client that errors or times out is marked not
connected and skipped from the results; errors are swallowed. Returns the
collected results, the updated client list, and the network addresses
contacted. -/
def callClientsWithTimeout {R : Type} (clients : List AbciCounterpartyClient)
    (resp : AbciCounterpartyClient → Except String R) :
    List R × List AbciCounterpartyClient × List Nat :=
  match clients with
  | [] => ([], [], [])
  | c :: rest =>
    let r2 := callClientsWithTimeout rest resp
    if c.isConnected then
      match resp c with
      | Except.error _e =>
        (r2.1, { c with isConnected := false } :: r2.2.1,
         c.networkAddress :: r2.2.2)
      | Except.ok r => (r :: r2.1, c :: r2.2.1, c.networkAddress :: r2.2.2)
    else
      (r2.1, c :: r2.2.1, r2.2.2)

/-! ## Block production engine -/

/-- The engine's hardcoded unlimited max data bytes. -/
def maxDataBytes : Int := -1

/-- Modelled from `types.Txs.Validate` (library, not under src): a size check
against a cap; the engine always passes the unlimited cap `-1`, under which
the check accepts. -/
def txsValidate (maxBytes : Int) (txs : List Bytes) : Bool :=
  if maxBytes < 0 then true
  else (txs.map fun t => (t.length : Int)).sum ≤ maxBytes

/-- Modelled from CometBFT `State.MakeBlock` (library, not under src): build
a block whose header is populated from the state; the block time (genesis
time at the initial height, median commit time otherwise) is modelled as the
state's last block time. -/
def State.makeBlock (s : State) (height : Int) (txs : List Bytes)
    (commit : Commit) (evidence : List Evidence)
    (proposerAddress : Address) : Block :=
  { header := { height := height, time := s.lastBlockTime,
                chainID := s.chainID, proposerAddress := proposerAddress,
                appHash := s.appHash, lastBlockID := s.lastBlockID },
    txs := txs, evidence := evidence, lastCommit := some commit }

/-- Embeds `CreateProposalBlock` and the block-producing part of
`decideProposal`: ask the proposer's backend to prepare the proposal (an
error or timeout there is a Go panic), validate the returned transaction
list, and seal the block. Proposal signing failures are only logged in the
source and do not affect the result. -/
def decideProposal (a : AbciClient) (proposerApp : AbciCounterpartyClient)
    (height : Int) (txs : List Bytes) (misbehaviour : List Evidence) :
    Outcome Block :=
  let commit := a.lastCommit.toCommit
  let proposerAddr := proposerApp.validatorAddress
  let _block := a.curState.makeBlock height txs commit misbehaviour proposerAddr
  match proposerApp.prepareProposalResp with
  | Except.error e => .panicked s!"PrepareProposal failed: {e}"
  | Except.ok modifiedTxs =>
    if txsValidate maxDataBytes modifiedTxs then
      .ok (a.curState.makeBlock height modifiedTxs commit misbehaviour proposerAddr)
    else .err "invalid txs"

/-- Models `ConsensusParams.ABCI.VoteExtensionsEnabled` (library): extensions
are active when the enable height is positive and not above this height. -/
def voteExtensionsEnabled (p : ConsensusParams) (height : Int) : Bool :=
  if 0 < p.voteExtensionsEnableHeight
      ∧ p.voteExtensionsEnableHeight ≤ height then true else false

/-- The client registered for a validator address
(`GetCounterpartyFromAddress`). -/
def clientForVal (a : AbciClient) (valAddr : Address) :
    Option AbciCounterpartyClient :=
  a.clients.find? fun c => c.validatorAddress == valAddr

/-- Embeds `ExtendAndSignVote`: build the precommit for the block, attach a
vote extension when enabled (an ExtendVote error aborts), and sign with the
backend's priv validator. A nil `block.LastCommit` would be a Go nil
dereference. -/
def ExtendAndSignVote (a : AbciClient) (app : AbciCounterpartyClient)
    (block : Block) : Outcome Vote :=
  let index := (getByAddress a.curState.validators app.validatorAddress).1
  match block.lastCommit with
  | none => .panicked "nil LastCommit"
  | some lastCommit =>
    let vote : Vote :=
      { validatorAddress := app.validatorAddress, validatorIndex := index,
        height := block.header.height, round := lastCommit.round,
        timestamp := block.header.time, voteType := precommitType,
        blockID := blockIdOf block, extension := [], signature := none }
    if voteExtensionsEnabled a.curState.consensusParams vote.height then
      match app.extendVoteResp with
      | Except.error e => .err e
      | Except.ok ext =>
        .ok (signVote app.privValKey a.curState.chainID
          { vote with extension := ext })
    else
      .ok (signVote app.privValKey a.curState.chainID vote)

/-- Resolves the requested misbehaviour list into evidence objects, as the
loop at the top of `RunBlockWithTimeAndProposer` does. -/
def constructEvidences (a : AbciClient)
    (l : List (Validator × MisbehaviourType)) (now1 now2 : Int) :
    Outcome (List Evidence) :=
  match l with
  | [] => .ok []
  | (v, mt) :: rest =>
    match (if mt = MisbehaviourType.DuplicateVote then
             (ConstructDuplicateVoteEvidence a v now1 now2).map Evidence.dup
           else
             (ConstructLightClientAttackEvidence a v mt).map Evidence.lca) with
    | .err e => .err e
    | .panicked e => .panicked e
    | .ok ev => (constructEvidences a rest now1 now2).map fun evs => ev :: evs

/-- The non-proposer loop: find the backend of every current validator (an
unknown validator is an error) and keep those that are not the proposer. -/
def nonProposersOf (a : AbciClient) (proposerAddress : Address) :
    List Validator → Except String (List AbciCounterpartyClient)
  | [] => Except.ok []
  | val :: rest =>
    match clientForVal a val.address with
    | none => Except.error "client with address not found"
    | some client =>
      match nonProposersOf a proposerAddress rest with
      | Except.error e => Except.error e
      | Except.ok cs =>
        if client.validatorAddress ≠ proposerAddress then
          Except.ok (client :: cs)
        else Except.ok cs

/-- The `ProcessProposal` loop over the non-proposers: a call error aborts
the round, and a rejection is the non-proposer-did-not-accept error. -/
def processProposalAll : List AbciCounterpartyClient → Outcome Unit
  | [] => .ok ()
  | c :: rest =>
    match c.processProposalResp with
    | Except.error e => .err e
    | Except.ok accepted =>
      if accepted then processProposalAll rest
      else .err "non-proposer did not accept the proposal"

/-- The vote-collection loop: consult the signing status of every current
validator (missing address is an error); signers produce a signed (possibly
extended) vote, non-signers contribute a nil vote. -/
def collectVotes (a : AbciClient) (block : Block) :
    List Validator → Outcome (List (Option Vote))
  | [] => .ok []
  | val :: rest =>
    match assocLookup a.signingStatus val.address with
    | none => .err "address not found in signing status map"
    | some shouldSign =>
      if shouldSign then
        match clientForVal a val.address with
        | none => .err "client with address not found"
        | some client =>
          match ExtendAndSignVote a client block with
          | .err e => .err e
          | .panicked e => .panicked e
          | .ok vote =>
            (collectVotes a block rest).map fun vs => some vote :: vs
      else
        (collectVotes a block rest).map fun vs => none :: vs

/-- The sort key of the in-place `sort.Slice` over
`CurState.Validators.Validators`: the backend's network address (a missing
backend panics in the Go comparator; the engine checks for that case before
sorting in this embedding). -/
def netKeyD (a : AbciClient) (valAddr : Address) : Nat :=
  match clientForVal a valAddr with
  | some c => c.networkAddress
  | none => 0

/-- Insertion step of the sort model. -/
def insertValByNet (a : AbciClient) (v : Validator) :
    List Validator → List Validator
  | [] => [v]
  | w :: ws =>
    if netKeyD a v.address < netKeyD a w.address then v :: w :: ws
    else w :: insertValByNet a v ws

/-- Models the in-place `sort.Slice` of the current validator slice by the
backends' network addresses (Go's sort is unstable; ties here keep their
order). This mutates `CurState.Validators` in the source. -/
def sortValsByNet (a : AbciClient) : List Validator → List Validator
  | [] => []
  | v :: vs => insertValByNet a v (sortValsByNet a vs)

/-- The inner verify-vote-extension loop for one backend: every non-nil vote
of another validator is verified; errors, unknown statuses and rejections are
Go panics. -/
def verifyExtensionsForClient (client : AbciCounterpartyClient) :
    List (Option Vote) → Outcome Unit
  | [] => .ok ()
  | none :: rest => verifyExtensionsForClient client rest
  | some vote :: rest =>
    if vote.validatorAddress ≠ client.validatorAddress then
      match client.verifyVoteExtensionResp with
      | Except.error e => .panicked s!"Verify vote extension failed with error {e}"
      | Except.ok accepted =>
        if accepted then verifyExtensionsForClient client rest
        else .panicked "Verify vote extension rejected an extension"
    else verifyExtensionsForClient client rest

/-- The outer verify-vote-extension loop over the (sorted) validators; a
missing backend is an error. -/
def verifyExtensionsLoop (a : AbciClient) (votes : List (Option Vote)) :
    List Validator → Outcome Unit
  | [] => .ok ()
  | val :: rest =>
    match clientForVal a val.address with
    | none => .err "client with address not found"
    | some client =>
      match verifyExtensionsForClient client votes with
      | .ok _ => verifyExtensionsLoop a votes rest
      | .err e => .err e
      | .panicked e => .panicked e

/-- The vote set keyed by chain id, height and round
(`NewExtendedVoteSet`). -/
structure VoteSet where
  chainID : String
  height : Int
  round : Int
  valSet : List Validator
  votes : List Vote
deriving DecidableEq, Repr

/-- Voting power carried by the given votes within the validator set. -/
def commitPower (valSet : List Validator) (votes : List Vote) : Int :=
  totalPower (valSet.filter fun v =>
    votes.any fun w => w.validatorAddress == v.address)

/-- Modelled from the spec and CometBFT `VoteSet.AddVote` (library, not under
src): the vote must come from a member of the validator set, must match the
set's height and round and carry a signature, and must not conflict with an
already-added vote of the same validator. -/
def VoteSet.addVote (vs : VoteSet) (vote : Vote) :
    Except String (Bool × VoteSet) :=
  match vs.valSet.find? fun v => v.address == vote.validatorAddress with
  | none => Except.ok (false, vs)
  | some _ =>
    if vs.votes.any fun w => w.validatorAddress == vote.validatorAddress then
      Except.error "conflicting vote from validator"
    else if vote.height ≠ vs.height ∨ vote.round ≠ vs.round then
      Except.ok (false, vs)
    else if vote.signature.isNone then
      Except.error "vote has no signature"
    else
      Except.ok (true, { vs with votes := vs.votes ++ [vote] })

/-- The vote-adding loop of the engine: nil votes are skipped, an AddVote
error or a vote that was not added aborts the round. -/
def addVotes (vs : VoteSet) : List (Option Vote) → Outcome VoteSet
  | [] => .ok vs
  | none :: rest => addVotes vs rest
  | some vote :: rest =>
    match vs.addVote vote with
    | Except.error e => .err e
    | Except.ok (added, vs2) =>
      if added then addVotes vs2 rest
      else .err "could not add vote to vote set"

/-- Modelled from the spec and CometBFT `VoteSet.MakeExtendedCommit`
(library, not under src): a commit is produced only when the tallied power is
strictly greater than 2/3 of the total power of the set; the library panics
otherwise. -/
def VoteSet.makeExtendedCommit (vs : VoteSet) : Option ExtendedCommit :=
  if 2 * totalPower vs.valSet < 3 * commitPower vs.valSet vs.votes then
    some { height := vs.height, round := vs.round,
           blockID := ((vs.votes.map fun v => v.blockID).headD
             { hash := 0, partSetHeader := 0 }),
           votes := vs.votes }
  else none

/-- Modelled from CometBFT `VerifyCommitLightTrusting` with trust fraction
1/3 (library, not under src): the commit's signers from the trusted set must
carry strictly more than 1/3 of its power. -/
def verifyCommitLightTrusting (valSet : List Validator) (commit : Commit) :
    Except String Unit :=
  if totalPower valSet < 3 * commitPower valSet commit.votes then Except.ok ()
  else Except.error "not enough voting power signed"

/-- Modelled from the spec: the header+commit pair must be a well-formed
signed light-client header for this chain. -/
def LightBlock.validateBasic (lb : LightBlock) (chainID : String) :
    Except String Unit :=
  if lb.signedHeader.header.chainID = chainID
      ∧ lb.signedHeader.commit.height = lb.signedHeader.header.height then
    Except.ok ()
  else Except.error "invalid light block"

/-- Embeds `UpdateStateFromBlock`: validate and convert the validator
updates, then run `UpdateState`. (The subsequent `fireEvents` publishes
events and never affects state.) -/
def UpdateStateFromBlock (a : AbciClient) (blockId : BlockID) (block : Block)
    (finalizeBlockRes : ResponseFinalizeBlock) : Except String State :=
  match validateValidatorUpdates finalizeBlockRes.validatorUpdates
      a.curState.consensusParams.pubKeyTypes with
  | Except.error e => Except.error s!"error in validator updates: {e}"
  | Except.ok _ =>
    match pb2tmValidatorUpdates finalizeBlockRes.validatorUpdates with
    | Except.error e => Except.error s!"error converting validator updates: {e}"
    | Except.ok validatorUpdates =>
      match UpdateState a.curState blockId block.header finalizeBlockRes
          validatorUpdates with
      | Except.error e => Except.error s!"error updating state: {e}"
      | Except.ok newState => Except.ok newState

/-- The results of a successful round: CheckTx (when a transaction was
supplied), FinalizeBlock and Commit responses. -/
structure RunBlockRes where
  resCheckTx : Option Nat
  resFinalizeBlock : ResponseFinalizeBlock
  resCommit : Nat
deriving DecidableEq, Repr

/-- The tail of `RunBlockWithTimeAndProposer`, entered with the new commit
already stored in `LastCommit` (the engine state `a2` carries it): the
trusted-commit re-verification and light-block check, the FinalizeBlock
fan-out, the storage update (with `LastBlock` set first), the state update,
and the final Commit fan-out, after which the FinalizeBlock app hash is
stamped onto the new state. -/
def finishBlock (a2 : AbciClient) (block : Block) (commit : ExtendedCommit)
    (resCheckTx : Option Nat) : Outcome RunBlockRes × AbciClient :=
  match verifyCommitLightTrusting a2.curState.validators commit.toCommit with
  | Except.error e => (.err e, a2)
  | Except.ok _ =>
    match LightBlock.validateBasic
        { signedHeader := { header := block.header,
                            commit := commit.toCommit },
          validatorSet := a2.curState.validators } a2.curState.chainID with
    | Except.error e => (.err e, a2)
    | Except.ok _ =>
      match SendFinalizeBlock a2 block with
      | .err e => (.err e, a2)
      | .panicked e => (.panicked e, a2)
      | .ok resFinalizeBlock =>
        match a2.updateStoresResp with
        | Except.error e => (.err e, { a2 with lastBlock := block })
        | Except.ok _ =>
          match UpdateStateFromBlock { a2 with lastBlock := block }
              (blockIdOf block) block resFinalizeBlock with
          | Except.error e => (.err e, { a2 with lastBlock := block })
          | Except.ok newState =>
            match SendCommit { a2 with lastBlock := block, curState := newState } with
            | .err e =>
              (.err e, { a2 with lastBlock := block, curState := newState })
            | .panicked e =>
              (.panicked e,
               { a2 with lastBlock := block, curState := newState })
            | .ok resCommit =>
              (.ok { resCheckTx := resCheckTx,
                     resFinalizeBlock := resFinalizeBlock,
                     resCommit := resCommit },
               { a2 with
                 lastBlock := block,
                 curState :=
                   { newState with appHash := resFinalizeBlock.appHash } })

/-- Result of a `Outcome`-valued step followed by the rest of the round. -/
def Outcome.bind {α β : Type} : Outcome α → (α → Outcome β) → Outcome β
  | .ok r, f => f r
  | .err e, _ => .err e
  | .panicked e, _ => .panicked e

/-- Injects a Go error return into `Outcome`. -/
def exceptToOutcome {α : Type} : Except String α → Outcome α
  | Except.error e => Outcome.err e
  | Except.ok x => Outcome.ok x

/-- The optional CheckTx pre-validation: only performed when a transaction
was supplied. -/
def checkTxStep (a : AbciClient) (tx : Option Bytes) : Outcome (Option Nat) :=
  match tx with
  | none => .ok none
  | some t => (SendCheckTx a t).map some

/-- The proposer backend lookup: the first client registered under the
proposer address; a missing backend is a hard failure. -/
def findProposerApp (a : AbciClient) (proposerAddress : Address) :
    Outcome AbciCounterpartyClient :=
  match a.clients.find? fun c => c.validatorAddress == proposerAddress with
  | none => .err "could not find proposer app for address"
  | some app => .ok app

/-- What the state-preserving prefix of the round produces: the CheckTx
response, the sealed proposal block, and the collected votes. -/
structure PrepareRes where
  resCheckTx : Option Nat
  block : Block
  votes : List (Option Vote)
deriving DecidableEq, Repr

/-- The state-preserving prefix of `RunBlockWithTimeAndProposer`, in source
order: CheckTx pre-validation, evidence construction, proposer lookup,
proposal building (PrepareProposal), the non-proposer ProcessProposal loop,
and vote collection (ExtendVote and signing). None of these steps writes any
engine state. -/
def prepareStage (a : AbciClient) (tx : Option Bytes)
    (proposer : Option Validator)
    (misbehavingValidators : List (Validator × MisbehaviourType))
    (now1 now2 : Int) : Outcome PrepareRes :=
  let txs : List Bytes := match tx with | none => [] | some t => [t]
  let proposerAddress : Address :=
    match proposer with | some p => p.address | none => 0
  (checkTxStep a tx).bind fun resCheckTx =>
  (constructEvidences a misbehavingValidators now1 now2).bind fun evidences =>
  (findProposerApp a proposerAddress).bind fun proposerApp =>
  (decideProposal a proposerApp (a.curState.lastBlockHeight + 1) txs
    evidences).bind fun block =>
  (exceptToOutcome (nonProposersOf a proposerAddress
    a.curState.validators)).bind fun nonProposers =>
  (processProposalAll nonProposers).bind fun _ =>
  (collectVotes a block a.curState.validators).bind fun votes =>
  .ok { resCheckTx := resCheckTx, block := block, votes := votes }

/-- The vote-aggregation part of the round, run after the validator slice was
sorted (`a1` carries the sorted slice): verify vote extensions, fold the
votes into the vote set, and extract the extended commit (a Go panic without
quorum). -/
def voteStage (a1 : AbciClient) (block : Block)
    (votes : List (Option Vote)) : Outcome ExtendedCommit :=
  (verifyExtensionsLoop a1 votes a1.curState.validators).bind fun _ =>
  (addVotes { chainID := a1.curState.chainID, height := block.header.height,
              round := 0, valSet := a1.curState.validators, votes := [] }
    votes).bind fun voteSet2 =>
  match voteSet2.makeExtendedCommit with
  | none => Outcome.panicked "MakeExtendedCommit without quorum"
  | some commit => Outcome.ok commit

/-- Embeds `RunBlockWithTimeAndProposer`. The `blockTime` argument is unused
by the source body (block times come from `MakeBlock`); `now1`/`now2` are the
`time.Now()` readings of the duplicate-vote construction. The second
component of the result is the engine state after the call: the prefix
(`prepareStage`) writes nothing; the in-place sort of the validator slice
produces `a1`; the new commit is stored in `LastCommit` before the sanity
checks; and `finishBlock` performs the finalize/store/update/commit tail. -/
def RunBlockWithTimeAndProposer (a : AbciClient) (tx : Option Bytes)
    (blockTime : Int) (proposer : Option Validator)
    (misbehavingValidators : List (Validator × MisbehaviourType))
    (now1 now2 : Int) : Outcome RunBlockRes × AbciClient :=
  let _ := blockTime
  match prepareStage a tx proposer misbehavingValidators now1 now2 with
  | .err e => (.err e, a)
  | .panicked e => (.panicked e, a)
  | .ok pr =>
    if a.curState.validators.all
        (fun val => (clientForVal a val.address).isSome) then
      let a1 := { a with curState :=
        { a.curState with
          validators := sortValsByNet a a.curState.validators } }
      match voteStage a1 pr.block pr.votes with
      | .err e => (.err e, a1)
      | .panicked e => (.panicked e, a1)
      | .ok commit =>
        finishBlock { a1 with lastCommit := commit } pr.block commit
          pr.resCheckTx
    else
      (.panicked "Did not find client for validator", a)

/-! ## Example instances -/

/-- A 95-validator set for the pagination scenario of the spec. -/
def exVals95 : List Validator :=
  (List.range 95).map fun i => { address := i + 1, power := 1, priority := 0 }

/-- A chain state whose last validator set has 95 entries. -/
def exState95 : State :=
  { chainID := "chain-1", initialHeight := 1, lastBlockHeight := 10,
    lastBlockID := { hash := 5, partSetHeader := 1 }, lastBlockTime := 100,
    validators := exVals95, nextValidators := exVals95,
    lastValidators := exVals95, lastHeightValidatorsChanged := 1,
    consensusParams := { appVersion := 1, pubKeyTypes := ["ed25519"],
                         voteExtensionsEnableHeight := 0 },
    lastHeightConsensusParamsChanged := 1, lastResultsHash := 0,
    appVersionState := 1, appHash := [3] }

/-- Example validator with power 5. -/
def exValA : Validator := { address := 1, power := 5, priority := 0 }

/-- Example validator with power 3, added by the example change set. -/
def exValB : Validator := { address := 2, power := 3, priority := 0 }

/-- A one-validator chain state at height 10 for the state-transition
scenario. -/
def exStateC3 : State :=
  { chainID := "chain-1", initialHeight := 1, lastBlockHeight := 10,
    lastBlockID := { hash := 5, partSetHeader := 1 }, lastBlockTime := 100,
    validators := [exValA], nextValidators := [exValA],
    lastValidators := [exValA], lastHeightValidatorsChanged := 1,
    consensusParams := { appVersion := 1, pubKeyTypes := ["ed25519"],
                         voteExtensionsEnableHeight := 0 },
    lastHeightConsensusParamsChanged := 1, lastResultsHash := 0,
    appVersionState := 1, appHash := [3] }

/-- The header of the example block at height 11. -/
def exHd : Header :=
  { height := 11, time := 500, chainID := "chain-1", proposerAddress := 1,
    appHash := [3], lastBlockID := { hash := 5, partSetHeader := 1 } }

/-- The header of the example block at height 12. -/
def exHd₂ : Header :=
  { height := 12, time := 600, chainID := "chain-1", proposerAddress := 1,
    appHash := [4], lastBlockID := { hash := 6, partSetHeader := 1 } }

/-- Example FinalizeBlock response carrying a consensus-parameter update. -/
def exFR : ResponseFinalizeBlock :=
  { appHash := [9], validatorUpdates := [],
    consensusParamUpdates := some { appVersion := some 2, pubKeyTypes := none,
                                    voteExtensionsEnableHeight := none },
    txResults := [1] }

/-- Example FinalizeBlock response with no updates at all. -/
def exFR₂ : ResponseFinalizeBlock :=
  { appHash := [9], validatorUpdates := [], consensusParamUpdates := none,
    txResults := [] }

/-- The example validator change set: add `exValB`. -/
def exVU : List Validator := [exValB]

/-- The example validator set after applying the change set. -/
def exUpdated : List Validator := [exValA, exValB]

/-- The state after the example block at height 11. -/
def exNs : State :=
  match UpdateState exStateC3 { hash := 7, partSetHeader := 1 } exHd exFR exVU with
  | Except.ok s => s
  | Except.error _ => exStateC3

/-- The state after the example block at height 12. -/
def exNs₂ : State :=
  match UpdateState exNs { hash := 8, partSetHeader := 1 } exHd₂ exFR₂ [] with
  | Except.ok s => s
  | Except.error _ => exNs

/-- Header of the example last committed block, at height 10. -/
def exHd10 : Header :=
  { height := 10, time := 100, chainID := "chain-1", proposerAddress := 1,
    appHash := [3], lastBlockID := { hash := 4, partSetHeader := 1 } }

/-- The example last committed block. -/
def exBlock10 : Block :=
  { header := exHd10, txs := [], evidence := [],
    lastCommit := some { height := 9, round := 0,
                         blockID := { hash := 3, partSetHeader := 1 },
                         votes := [] } }

/-- The example extended commit for the block at height 10. -/
def exPrevCommit : ExtendedCommit :=
  { height := 10, round := 0, blockID := blockIdOf exBlock10, votes := [] }

/-- A healthy example backend for validator 1. -/
def exClientGood : AbciCounterpartyClient :=
  { networkAddress := 100, validatorAddress := 1, privValKey := 42,
    isConnected := true,
    checkTxResp := Except.ok 0,
    prepareProposalResp := Except.ok [],
    processProposalResp := Except.ok true,
    extendVoteResp := Except.ok [],
    verifyVoteExtensionResp := Except.ok true,
    finalizeBlockResp := Except.ok { appHash := [7], validatorUpdates := [],
                                     consensusParamUpdates := none,
                                     txResults := [] },
    commitResp := Except.ok 0,
    infoResp := Except.ok 0 }

/-- An example engine with one validator and one healthy backend, sitting at
height 10. -/
def exAbci : AbciClient :=
  { clients := [exClientGood], curState := exStateC3,
    lastBlock := exBlock10, lastCommit := exPrevCommit,
    privValidators := [(1, 42)], signingStatus := [(1, true)],
    timeOffset := 0, errorOnUnequalResponses := false,
    storedStates := [(10, exStateC3)], updateStoresResp := Except.ok () }

/-- An all-zero vote, used as match fallback in witness extractions. -/
def voteFallback : Vote :=
  { validatorAddress := 0, validatorIndex := 0, height := 0, round := 0,
    timestamp := 0, voteType := 0,
    blockID := { hash := 0, partSetHeader := 0 }, extension := [],
    signature := none }

/-- The duplicate-vote evidence the example engine builds for validator 1. -/
def exEvDup : DuplicateVoteEvidence :=
  match ConstructDuplicateVoteEvidence exAbci exValA 1000 2000 with
  | .ok e => e
  | _ => { voteA := voteFallback, voteB := voteFallback,
           totalVotingPower := 0, validatorPower := 0, timestamp := 0 }

/-- Fallback light-client-attack evidence for witness extractions. -/
def lcaFallback : LightClientAttackEvidence :=
  { totalVotingPower := 0, timestamp := 0, byzantineValidators := [],
    commonHeight := 0,
    conflictingBlock :=
      { signedHeader := { header := Header.zero,
                          commit := { height := 0, round := 0,
                                      blockID := { hash := 0, partSetHeader := 0 },
                                      votes := [] } },
        validatorSet := [] } }

/-- The Lunatic light-client-attack evidence the example engine builds. -/
def exEvLun : LightClientAttackEvidence :=
  match ConstructLightClientAttackEvidence exAbci exValA .Lunatic with
  | .ok e => e
  | _ => lcaFallback

/-- The Amnesia light-client-attack evidence the example engine builds. -/
def exEvAmn : LightClientAttackEvidence :=
  match ConstructLightClientAttackEvidence exAbci exValA .Amnesia with
  | .ok e => e
  | _ => lcaFallback

/-- The Equivocation light-client-attack evidence the example engine builds. -/
def exEvEqu : LightClientAttackEvidence :=
  match ConstructLightClientAttackEvidence exAbci exValA .Equivocation with
  | .ok e => e
  | _ => lcaFallback

/-- The healthy backend, except that its final Commit call fails. -/
def exClientCommitFail : AbciCounterpartyClient :=
  { exClientGood with commitResp := Except.error "commit failed" }

/-- The example engine whose only backend fails the final Commit call. -/
def exAbciCommitFail : AbciClient :=
  { exAbci with clients := [exClientCommitFail] }

/-- The engine state after the round whose final Commit call failed. -/
def exAbciFailPost : AbciClient :=
  (RunBlockWithTimeAndProposer exAbciCommitFail none 0 (some exValA) [] 0 0).2

/-- The engine state after a fully successful example round. -/
def exAbciOkPost : AbciClient :=
  (RunBlockWithTimeAndProposer exAbci none 0 (some exValA) [] 0 0).2

/-- The healthy backend marked unreachable. -/
def exClientDisc : AbciCounterpartyClient :=
  { exClientGood with isConnected := false }

/-- The example engine whose only backend is marked unreachable. -/
def exAbciDisc : AbciClient :=
  { exAbci with clients := [exClientDisc] }

/-- An unreachable backend whose CheckTx call errors. -/
def exClientDiscErr : AbciCounterpartyClient :=
  { exClientDisc with checkTxResp := Except.error "connection refused" }

/-- The example engine whose unreachable backend errors on CheckTx. -/
def exAbciDiscErr : AbciClient :=
  { exAbci with clients := [exClientDiscErr] }

/-- Fallback round result for witness extractions. -/
def runResFallback : RunBlockRes :=
  { resCheckTx := none,
    resFinalizeBlock := { appHash := [], validatorUpdates := [],
                          consensusParamUpdates := none, txResults := [] },
    resCommit := 0 }

/-- The results of the successful example round. -/
def exOkRes : RunBlockRes :=
  match RunBlockWithTimeAndProposer exAbci none 0 (some exValA) [] 0 0 with
  | (Outcome.ok r, _) => r
  | _ => runResFallback

/-- C5: the `validators` query defaults to 30 entries per page capped at 100,
rejects out-of-range pages with an error naming the valid range, and for a
95-validator set with perPage = 30 returns on page 4 exactly the last five
validators (entries 91 to 95) with count 5 and total 95, while page 5 is
rejected as out of range. -/
theorem validators_pagination :
    (∀ pp : Int, validatePerPage none = 30
      ∧ 1 ≤ validatePerPage (some pp)
      ∧ validatePerPage (some pp) ≤ 100)
    ∧ validatePerPage (some 200) = 100
    ∧ Validators exState95 none (some 4) (some 30) =
        .ok { blockHeight := 10,
              validators := [{ address := 91, power := 1, priority := 0 },
                             { address := 92, power := 1, priority := 0 },
                             { address := 93, power := 1, priority := 0 },
                             { address := 94, power := 1, priority := 0 },
                             { address := 95, power := 1, priority := 0 }],
              count := 5, total := 95 }
    ∧ Validators exState95 none (some 5) (some 30) =
        .error "page should be within [1, 4] range, given 5" := by
  refine ⟨?_, by decide, by rfl, by rfl⟩
  intro pp
  refine ⟨rfl, ?_, ?_⟩
  · simp only [validatePerPage, defaultPerPage, maxPerPage]
    split <;> [omega; split <;> omega]
  · simp only [validatePerPage, defaultPerPage, maxPerPage]
    split <;> [omega; split <;> omega]

/-- C8: the time offset is monotonically non-decreasing — a negative increment
is rejected with an error and leaves the stored offset unchanged, and a
non-negative increment succeeds and grows the offset by exactly that amount. -/
theorem increment_time_offset_monotone (timeOffset additionalOffset : Int) :
    IncrementTimeOffset timeOffset additionalOffset =
      if additionalOffset < 0 then
        (.error "time offset cannot be decremented, please provide a positive offset",
         timeOffset)
      else
        (.ok (), timeOffset + additionalOffset) := rfl

/-- C9: querying `block` or `validators` with an explicit height always fails
with the descriptive height-not-supported error, whatever the height value,
and the result on that path does not depend on (read) the chain state. -/
theorem explicit_height_rejected (cur cur₂ : State) (h : Int)
    (pagePtr perPagePtr : Option Int) :
    BlockRoute cur (some h) =
      .error "height parameter is not supported, use version of the function without height"
    ∧ Validators cur (some h) pagePtr perPagePtr =
      .error "height parameter is not supported, use version of the function without height"
    ∧ BlockRoute cur (some h) = BlockRoute cur₂ (some h)
    ∧ Validators cur (some h) pagePtr perPagePtr
        = Validators cur₂ (some h) pagePtr perPagePtr := by
  refine ⟨rfl, rfl, rfl, rfl⟩

/-- C10: the `block` query without a height returns the engine's last block ID
from current state, and a freshly constructed block whose header carries only
the last block height — transactions, evidence, last commit and all other
header fields are empty or zero, independent of the actual latest block. -/
theorem block_route_empty_block (cur : State) :
    BlockRoute cur none =
      .ok { blockID := cur.lastBlockID,
            block := { header := { height := cur.lastBlockHeight, time := 0,
                                   chainID := "", proposerAddress := 0,
                                   appHash := [],
                                   lastBlockID := { hash := 0, partSetHeader := 0 } },
                       txs := [], evidence := [], lastCommit := none } } := rfl

/-- With an empty change set the validator step keeps the copied
NextValidators and the old bookkeeping height. -/
theorem updateStateValStep_nil (curState : State) (hd : Header) :
    updateStateValStep curState hd [] =
      Except.ok (curState.nextValidators,
                 curState.lastHeightValidatorsChanged) := rfl

/-- Characterization of a successful validator step. -/
theorem updateStateValStep_ok (curState : State) (hd : Header)
    (vu : List Validator) (p : List Validator × Int)
    (h : updateStateValStep curState hd vu = Except.ok p) :
    (vu = [] →
      p = (curState.nextValidators, curState.lastHeightValidatorsChanged))
    ∧ (∀ upd, updateWithChangeSet curState.nextValidators vu = Except.ok upd →
        vu ≠ [] → p = (upd, hd.height + 1 + 1)) := by
  cases vu with
  | nil =>
    refine ⟨?_, ?_⟩
    · intro _
      rw [updateStateValStep_nil] at h
      injection h with h
      exact h.symm
    · intro upd _ hne
      exact absurd rfl hne
  | cons v rest =>
    refine ⟨?_, ?_⟩
    · intro hnil
      cases hnil
    · intro upd hup _
      unfold updateStateValStep at h
      rw [hup] at h
      simp only [List.isEmpty_cons, Bool.false_eq_true, if_false] at h
      injection h with h
      exact h.symm

/-- Characterization of a successful consensus-params step. -/
theorem updateStateParamStep_ok (curState : State) (hd : Header)
    (fr : ResponseFinalizeBlock) (p : ConsensusParams × Int × Nat)
    (h : updateStateParamStep curState hd fr = Except.ok p) :
    (fr.consensusParamUpdates = none →
      p = (curState.consensusParams,
           curState.lastHeightConsensusParamsChanged,
           curState.appVersionState))
    ∧ (∀ u, fr.consensusParamUpdates = some u →
        p = (curState.consensusParams.update u, hd.height + 1,
             (curState.consensusParams.update u).appVersion)) := by
  unfold updateStateParamStep at h
  cases hcp : fr.consensusParamUpdates with
  | none =>
    simp only [hcp] at h
    refine ⟨?_, ?_⟩
    · intro _
      injection h with h
      exact h.symm
    · intro u hu
      exact Option.noConfusion hu
  | some u =>
    simp only [hcp] at h
    cases hvb : (curState.consensusParams.update u).validateBasic with
    | error e =>
      rw [hvb] at h
      exact Except.noConfusion h
    | ok _ =>
      rw [hvb] at h
      refine ⟨?_, ?_⟩
      · intro hnone
        exact Option.noConfusion hnone
      · intro u' hu'
        injection hu' with hu'
        subst hu'
        injection h with h
        exact h.symm

/-- Characterization of a successful `UpdateState` call: which fields of the
next state come from where. -/
theorem updateState_ok_fields (curState : State) (blockId : BlockID)
    (hd : Header) (fr : ResponseFinalizeBlock) (vu : List Validator)
    (ns : State) (h : UpdateState curState blockId hd fr vu = .ok ns) :
    ns.lastBlockHeight = hd.height
    ∧ ns.validators = curState.nextValidators
    ∧ ns.lastValidators = curState.validators
    ∧ (vu = [] →
        ns.nextValidators = incrementProposerPriority curState.nextValidators
        ∧ ns.lastHeightValidatorsChanged = curState.lastHeightValidatorsChanged)
    ∧ (∀ upd, updateWithChangeSet curState.nextValidators vu = Except.ok upd →
        vu ≠ [] →
        ns.nextValidators = incrementProposerPriority upd
        ∧ ns.lastHeightValidatorsChanged = hd.height + 1 + 1)
    ∧ (fr.consensusParamUpdates = none →
        ns.consensusParams = curState.consensusParams
        ∧ ns.lastHeightConsensusParamsChanged
            = curState.lastHeightConsensusParamsChanged)
    ∧ (∀ u, fr.consensusParamUpdates = some u →
        ns.consensusParams = curState.consensusParams.update u
        ∧ ns.lastHeightConsensusParamsChanged = hd.height + 1) := by
  unfold UpdateState at h
  cases hval : updateStateValStep curState hd vu with
  | error e =>
    rw [hval] at h
    exact Except.noConfusion h
  | ok pv =>
    obtain ⟨nv0, lhv⟩ := pv
    cases hpar : updateStateParamStep curState hd fr with
    | error e =>
      rw [hval, hpar] at h
      exact Except.noConfusion h
    | ok pp =>
      obtain ⟨npar, lhp, nav⟩ := pp
      rw [hval, hpar] at h
      injection h with h
      subst h
      obtain ⟨hv1, hv2⟩ := updateStateValStep_ok _ _ _ _ hval
      obtain ⟨hp1, hp2⟩ := updateStateParamStep_ok _ _ _ _ hpar
      refine ⟨rfl, rfl, rfl, ?_, ?_, ?_, ?_⟩
      · intro hnil
        have h' := hv1 hnil
        injection h' with ha hb
        subst ha
        subst hb
        exact ⟨rfl, rfl⟩
      · intro upd hup hne
        have h' := hv2 upd hup hne
        injection h' with ha hb
        subst ha
        subst hb
        exact ⟨rfl, rfl⟩
      · intro hnone
        have h' := hp1 hnone
        injection h' with ha hb
        injection hb with hb hc
        subst ha
        subst hb
        exact ⟨rfl, rfl⟩
      · intro u hu
        have h' := hp2 u hu
        injection h' with ha hb
        injection hb with hb hc
        subst ha
        subst hb
        exact ⟨rfl, rfl⟩

/-- Advancing the proposer priorities does not change addresses or powers. -/
theorem incrementProposerPriority_core (l : List Validator) :
    (incrementProposerPriority l).map (fun v => (v.address, v.power))
      = l.map fun v => (v.address, v.power) := by
  simp only [incrementProposerPriority, List.map_map]
  rfl

/-- C3: after a block at height H, validator updates from the FinalizeBlock
response are applied to the NextValidators set with
LastHeightValidatorsChanged = H + 2 — the state after the next block (H + 1)
is the first whose Validators set is the updated one — while the Validators
set for height H + 1 is the previous NextValidators; consensus-parameter
updates set LastHeightConsensusParamsChanged = H + 1 and become the active
parameters immediately after block H. -/
theorem validator_updates_take_effect_two_heights_later
    (curState : State) (blockId blockId₂ : BlockID) (hd hd₂ : Header)
    (fr fr₂ : ResponseFinalizeBlock) (vu updated : List Validator)
    (ns ns₂ : State)
    (h : UpdateState curState blockId hd fr vu = .ok ns) :
    ns.validators = curState.nextValidators
    ∧ ns.lastValidators = curState.validators
    ∧ (vu = [] →
        ns.nextValidators = incrementProposerPriority curState.nextValidators
        ∧ ns.lastHeightValidatorsChanged = curState.lastHeightValidatorsChanged)
    ∧ (updateWithChangeSet curState.nextValidators vu = Except.ok updated →
        vu ≠ [] →
        ns.nextValidators = incrementProposerPriority updated
        ∧ ns.lastHeightValidatorsChanged = hd.height + 2)
    ∧ (fr.consensusParamUpdates = none →
        ns.consensusParams = curState.consensusParams
        ∧ ns.lastHeightConsensusParamsChanged
            = curState.lastHeightConsensusParamsChanged)
    ∧ (∀ u, fr.consensusParamUpdates = some u →
        ns.consensusParams = curState.consensusParams.update u
        ∧ ns.lastHeightConsensusParamsChanged = hd.height + 1)
    ∧ (updateWithChangeSet curState.nextValidators vu = Except.ok updated →
        vu ≠ [] →
        UpdateState ns blockId₂ hd₂ fr₂ [] = .ok ns₂ →
        ns₂.validators = incrementProposerPriority updated
        ∧ ns₂.validators.map (fun v => (v.address, v.power))
            = updated.map fun v => (v.address, v.power)) := by
  obtain ⟨-, f2, f3, f4, f5, f6, f7⟩ := updateState_ok_fields _ _ _ _ _ _ h
  refine ⟨f2, f3, f4, ?_, f6, f7, ?_⟩
  · intro hup hne
    obtain ⟨g1, g2⟩ := f5 updated hup hne
    exact ⟨g1, by omega⟩
  · intro hup hne h₂
    obtain ⟨-, g2, -, -, -, -, -⟩ := updateState_ok_fields _ _ _ _ _ _ h₂
    have hnv := (f5 updated hup hne).1
    rw [g2, hnv]
    exact ⟨rfl, incrementProposerPriority_core updated⟩

/-- Closed instance of the state-transition theorem: a one-validator chain
gains validator `exValB` via the change set at height 11; the new validator
is absent from the set used at height 12 and present in the set used at
height 13; the consensus-parameter update is booked for height 12. -/
theorem validator_updates_two_heights_witness :
    exNs.validators = exStateC3.nextValidators
    ∧ exNs.lastHeightValidatorsChanged = exHd.height + 2
    ∧ exNs.lastHeightConsensusParamsChanged = exHd.height + 1
    ∧ exNs₂.validators = incrementProposerPriority exUpdated := by
  have h := validator_updates_take_effect_two_heights_later exStateC3
    { hash := 7, partSetHeader := 1 } { hash := 8, partSetHeader := 1 }
    exHd exHd₂ exFR exFR₂ exVU exUpdated exNs exNs₂ (by rfl)
  refine ⟨h.1, ?_, ?_, ?_⟩
  · exact (h.2.2.2.1 (by rfl) (by decide)).2
  · refine (h.2.2.2.2.2.1 ?_ ?_).2
    · exact { appVersion := some 2, pubKeyTypes := none,
              voteExtensionsEnableHeight := none }
    · rfl
  · exact (h.2.2.2.2.2.2 (by rfl) (by decide) (by rfl)).1
/-- C6: duplicate-vote evidence always contains two precommit votes for the
last committed block that agree on height, validator address, validator
index, type and block id, differ in round (1 versus 2), are each signed by
the target validator's key, and each pass basic vote validation before the
evidence is returned. -/
theorem duplicate_vote_evidence_two_rounds (a : AbciClient) (v : Validator)
    (now1 now2 : Int) (ev : DuplicateVoteEvidence)
    (h : ConstructDuplicateVoteEvidence a v now1 now2 = .ok ev) :
    ev.voteA.height = ev.voteB.height
    ∧ ev.voteA.height = a.lastBlock.header.height
    ∧ ev.voteA.validatorAddress = v.address
    ∧ ev.voteB.validatorAddress = v.address
    ∧ ev.voteA.validatorIndex = ev.voteB.validatorIndex
    ∧ ev.voteA.voteType = precommitType
    ∧ ev.voteB.voteType = precommitType
    ∧ ev.voteA.blockID = ev.voteB.blockID
    ∧ ev.voteA.blockID = blockIdOf a.lastBlock
    ∧ ev.voteA.round = 1
    ∧ ev.voteB.round = 2
    ∧ ev.voteA.round ≠ ev.voteB.round
    ∧ ev.voteA.validateBasic = Except.ok ()
    ∧ ev.voteB.validateBasic = Except.ok ()
    ∧ (∃ key, assocLookup a.privValidators v.address = some key
        ∧ ev.voteA.signature
            = some (key, a.curState.chainID, ev.voteA.height, 1, ev.voteA.blockID)
        ∧ ev.voteB.signature
            = some (key, a.curState.chainID, ev.voteB.height, 2, ev.voteB.blockID)) := by
  unfold ConstructDuplicateVoteEvidence at h
  cases hpv : assocLookup a.privValidators v.address with
  | none =>
    simp only [hpv] at h
    exact Outcome.noConfusion h
  | some key =>
    simp only [hpv] at h
    cases hgs : a.getState a.lastBlock.header.height with
    | error e =>
      simp only [hgs] at h
      exact Outcome.noConfusion h
    | ok lastState =>
      simp only [hgs] at h
      cases hga : getByAddress lastState.validators v.address with
      | mk idx ov =>
        cases ov with
        | none =>
          simp only [hga] at h
          exact Outcome.noConfusion h
        | some valLS =>
          simp only [hga] at h
          split at h
          · exact Outcome.noConfusion h
          · rename_i uA hvbA
            split at h
            · exact Outcome.noConfusion h
            · rename_i uB hvbB
              injection h with h
              subst h
              refine ⟨rfl, rfl, rfl, rfl, rfl, rfl, rfl, rfl, rfl, rfl, rfl,
                ?_, ?_, ?_, key, rfl, rfl, rfl⟩
              · show (1 : Int) ≠ 2
                decide
              · cases uA
                exact hvbA
              · cases uB
                exact hvbB

/-- C7: light-client-attack evidence is a copy of the last committed block
mutated exactly per subtype: Lunatic replaces the app hash by the invalid
constant, Equivocation shifts the timestamp by one second, Amnesia leaves the
copy unmodified; the result is wrapped with the current validator set and the
last commit, and the unknown subtype (DuplicateVote) yields an error once the
stored state has been fetched. -/
theorem light_client_attack_evidence_shape (a : AbciClient) (v : Validator) :
    (∀ ev, ConstructLightClientAttackEvidence a v .Lunatic = .ok ev →
        ev.conflictingBlock.signedHeader.header
            = { a.lastBlock.header with appHash := someOtherAppHash }
        ∧ ev.conflictingBlock.signedHeader.commit = a.lastCommit.toCommit
        ∧ ev.conflictingBlock.validatorSet = a.curState.validators
        ∧ ev.byzantineValidators = [v]
        ∧ ev.commonHeight = a.lastBlock.header.height - 1)
    ∧ (∀ ev, ConstructLightClientAttackEvidence a v .Amnesia = .ok ev →
        ev.conflictingBlock.signedHeader.header = a.lastBlock.header
        ∧ ev.conflictingBlock.signedHeader.commit = a.lastCommit.toCommit
        ∧ ev.conflictingBlock.validatorSet = a.curState.validators
        ∧ ev.byzantineValidators = [v]
        ∧ ev.commonHeight = a.lastBlock.header.height - 1)
    ∧ (∀ ev, ConstructLightClientAttackEvidence a v .Equivocation = .ok ev →
        ev.conflictingBlock.signedHeader.header
            = { a.lastBlock.header with
                time := a.lastBlock.header.time + oneSecond }
        ∧ ev.conflictingBlock.signedHeader.commit = a.lastCommit.toCommit
        ∧ ev.conflictingBlock.validatorSet = a.curState.validators
        ∧ ev.byzantineValidators = [v]
        ∧ ev.commonHeight = a.lastBlock.header.height - 1)
    ∧ (∀ ls, a.getState a.lastBlock.header.height = Except.ok ls →
        ConstructLightClientAttackEvidence a v .DuplicateVote
          = .err "unknown misbehaviour type for light client misbehaviour") := by
  refine ⟨?_, ?_, ?_, ?_⟩
  · intro ev h
    unfold ConstructLightClientAttackEvidence at h
    cases hgs : a.getState a.lastBlock.header.height with
    | error e =>
      simp only [hgs] at h
      exact Outcome.noConfusion h
    | ok ls =>
      simp only [hgs] at h
      injection h with h
      subst h
      exact ⟨rfl, rfl, rfl, rfl, rfl⟩
  · intro ev h
    unfold ConstructLightClientAttackEvidence at h
    cases hgs : a.getState a.lastBlock.header.height with
    | error e =>
      simp only [hgs] at h
      exact Outcome.noConfusion h
    | ok ls =>
      simp only [hgs] at h
      injection h with h
      subst h
      exact ⟨rfl, rfl, rfl, rfl, rfl⟩
  · intro ev h
    unfold ConstructLightClientAttackEvidence at h
    cases hgs : a.getState a.lastBlock.header.height with
    | error e =>
      simp only [hgs] at h
      exact Outcome.noConfusion h
    | ok ls =>
      simp only [hgs] at h
      injection h with h
      subst h
      exact ⟨rfl, rfl, rfl, rfl, rfl⟩
  · intro ls hls
    unfold ConstructLightClientAttackEvidence
    simp only [hls]

/-- Closed instance of the duplicate-vote-evidence theorem at the example
engine. -/
theorem duplicate_vote_evidence_witness :
    exEvDup.voteA.round = 1
    ∧ exEvDup.voteB.round = 2
    ∧ exEvDup.voteA.height = exEvDup.voteB.height
    ∧ exEvDup.voteA.validateBasic = Except.ok ()
    ∧ exEvDup.voteB.validateBasic = Except.ok () := by
  have h := duplicate_vote_evidence_two_rounds exAbci exValA 1000 2000 exEvDup
    (by rfl)
  exact ⟨h.2.2.2.2.2.2.2.2.2.1, h.2.2.2.2.2.2.2.2.2.2.1, h.1,
    h.2.2.2.2.2.2.2.2.2.2.2.2.1, h.2.2.2.2.2.2.2.2.2.2.2.2.2.1⟩

/-- Closed instance of the light-client-attack-evidence theorem at the
example engine: each subtype yields exactly its mutation, and the unknown
subtype errors. -/
theorem light_client_attack_evidence_witness :
    exEvLun.conflictingBlock.signedHeader.header
        = { exAbci.lastBlock.header with appHash := someOtherAppHash }
    ∧ exEvAmn.conflictingBlock.signedHeader.header = exAbci.lastBlock.header
    ∧ exEvEqu.conflictingBlock.signedHeader.header
        = { exAbci.lastBlock.header with
            time := exAbci.lastBlock.header.time + oneSecond }
    ∧ ConstructLightClientAttackEvidence exAbci exValA .DuplicateVote
        = .err "unknown misbehaviour type for light client misbehaviour" := by
  have h := light_client_attack_evidence_shape exAbci exValA
  exact ⟨(h.1 exEvLun (by rfl)).1, (h.2.1 exEvAmn (by rfl)).1,
    (h.2.2.1 exEvEqu (by rfl)).1, h.2.2.2 exStateC3 (by rfl)⟩

/-- The contact trace of `callClientsWithTimeout` is exactly the connected
clients, in order: a backend whose flag is false is never called. -/
theorem callClients_trace {R : Type} (clients : List AbciCounterpartyClient)
    (resp : AbciCounterpartyClient → Except String R) :
    (callClientsWithTimeout clients resp).2.2
      = ((clients.filter fun c => c.isConnected).map
          fun c => c.networkAddress) := by
  induction clients with
  | nil => rfl
  | cons c rest ih =>
    simp only [callClientsWithTimeout, List.filter_cons]
    cases hc : c.isConnected with
    | false => simp [ih]
    | true =>
      cases hr : resp c with
      | error e => simp [ih]
      | ok r => simp [ih]

/-- The connection flags after `callClientsWithTimeout`: a backend stays
connected only if it already was and its call succeeded — in particular a
disconnected backend is never reconnected. -/
theorem callClients_flags {R : Type} (clients : List AbciCounterpartyClient)
    (resp : AbciCounterpartyClient → Except String R) :
    ((callClientsWithTimeout clients resp).2.1.map
        fun c => (c.networkAddress, c.isConnected))
      = (clients.map fun c =>
          (c.networkAddress, c.isConnected && (resp c).isOk)) := by
  induction clients with
  | nil => rfl
  | cons c rest ih =>
    simp only [callClientsWithTimeout, List.map_cons]
    cases hc : c.isConnected with
    | false => simp [ih, hc]
    | true =>
      cases hr : resp c with
      | error e => simp [ih, hc, hr, Except.isOk, Except.toBool]
      | ok r => simp [ih, hc, hr, Except.isOk, Except.toBool]

/-- When every response succeeds, a `Send*` fan-out contacts every client in
`a.Clients`, regardless of the connection flags. -/
theorem fanoutAll_trace_all_ok {R : Type}
    (clients : List AbciCounterpartyClient)
    (resp : AbciCounterpartyClient → Except String R)
    (h : (clients.all fun c => (resp c).isOk) = true) :
    (fanoutAll clients resp).2 = clients.map fun c => c.networkAddress := by
  induction clients with
  | nil => rfl
  | cons c rest ih =>
    simp only [List.all_cons, Bool.and_eq_true] at h
    obtain ⟨h1, h2⟩ := h
    cases hr : resp c with
    | error e =>
      rw [hr] at h1
      simp [Except.isOk, Except.toBool] at h1
    | ok r =>
      simp only [fanoutAll, hr, List.map_cons]
      rw [ih h2]

/-- C4 (amended): a backend marked unreachable is excluded from every call
made through `callClientsWithTimeout` and its flag is never set back to true;
but the CheckTx, FinalizeBlock, Commit and Info fan-outs iterate over all of
`a.Clients` without consulting the flag — a backend marked unreachable is
still contacted by them, and their first error fails the call instead of
dropping the backend. -/
theorem unreachable_excluded_only_from_callClients {R : Type}
    (clients : List AbciCounterpartyClient)
    (resp : AbciCounterpartyClient → Except String R) (a : AbciClient) :
    (callClientsWithTimeout clients resp).2.2
        = ((clients.filter fun c => c.isConnected).map
            fun c => c.networkAddress)
    ∧ ((callClientsWithTimeout clients resp).2.1.map
          fun c => (c.networkAddress, c.isConnected))
        = (clients.map fun c =>
            (c.networkAddress, c.isConnected && (resp c).isOk))
    ∧ ((a.clients.all fun c => c.checkTxResp.isOk) = true →
        SendCheckTxTrace a = a.clients.map fun c => c.networkAddress)
    ∧ ((a.clients.all fun c => c.finalizeBlockResp.isOk) = true →
        SendFinalizeBlockTrace a = a.clients.map fun c => c.networkAddress)
    ∧ ((a.clients.all fun c => c.commitResp.isOk) = true →
        SendCommitTrace a = a.clients.map fun c => c.networkAddress)
    ∧ ((a.clients.all fun c => c.infoResp.isOk) = true →
        SendAbciInfoTrace a = a.clients.map fun c => c.networkAddress) := by
  refine ⟨callClients_trace clients resp, callClients_flags clients resp,
    ?_, ?_, ?_, ?_⟩
  · intro h
    exact fanoutAll_trace_all_ok a.clients _ h
  · intro h
    exact fanoutAll_trace_all_ok a.clients _ h
  · intro h
    exact fanoutAll_trace_all_ok a.clients _ h
  · intro h
    exact fanoutAll_trace_all_ok a.clients _ h

/-- Closed instance of the amended C4 theorem at a one-backend engine whose
backend is marked unreachable: `callClientsWithTimeout` contacts nobody,
while the four fan-outs contact the unreachable backend. -/
theorem unreachable_exclusion_witness :
    (callClientsWithTimeout exAbciDisc.clients
        (fun c => c.checkTxResp)).2.2
        = ((exAbciDisc.clients.filter fun c => c.isConnected).map
            fun c => c.networkAddress)
    ∧ ((callClientsWithTimeout exAbciDisc.clients
          (fun c => c.checkTxResp)).2.1.map
          fun c => (c.networkAddress, c.isConnected))
        = (exAbciDisc.clients.map fun c =>
            (c.networkAddress, c.isConnected && (c.checkTxResp).isOk))
    ∧ SendCheckTxTrace exAbciDisc
        = (exAbciDisc.clients.map fun c => c.networkAddress)
    ∧ SendFinalizeBlockTrace exAbciDisc
        = (exAbciDisc.clients.map fun c => c.networkAddress)
    ∧ SendCommitTrace exAbciDisc
        = (exAbciDisc.clients.map fun c => c.networkAddress)
    ∧ SendAbciInfoTrace exAbciDisc
        = (exAbciDisc.clients.map fun c => c.networkAddress) := by
  have h := unreachable_excluded_only_from_callClients exAbciDisc.clients
    (fun c => c.checkTxResp) exAbciDisc
  exact ⟨h.1, h.2.1, h.2.2.1 (by rfl), h.2.2.2.1 (by rfl),
    h.2.2.2.2.1 (by rfl), h.2.2.2.2.2 (by rfl)⟩

/-- C4 counterexample: a backend whose connected flag is false is still a
recipient of the CheckTx, FinalizeBlock, Commit and Info fan-outs (only
`callClientsWithTimeout` drops it), and a fan-out fails on the backend's
error instead of dropping it. -/
theorem unreachable_contacted_by_fanouts_counterexample :
    exClientDisc.isConnected = false
    ∧ SendCheckTxTrace exAbciDisc = [exClientDisc.networkAddress]
    ∧ SendFinalizeBlockTrace exAbciDisc = [exClientDisc.networkAddress]
    ∧ SendCommitTrace exAbciDisc = [exClientDisc.networkAddress]
    ∧ SendAbciInfoTrace exAbciDisc = [exClientDisc.networkAddress]
    ∧ (callClientsWithTimeout exAbciDisc.clients fun c => c.checkTxResp).2.2
        = []
    ∧ SendCheckTx exAbciDiscErr [1] = .err "connection refused" := by
  refine ⟨rfl, rfl, rfl, rfl, rfl, rfl, rfl⟩

/-- Successful binds decompose into a successful step and a successful
continuation. -/
theorem Outcome.bind_ok {α β : Type} (x : Outcome α) (f : α → Outcome β)
    (b : β) (h : x.bind f = .ok b) : ∃ a, x = .ok a ∧ f a = .ok b := by
  cases x with
  | ok a => exact ⟨a, rfl, h⟩
  | err e => exact Outcome.noConfusion h
  | panicked e => exact Outcome.noConfusion h

/-- A sealed proposal block carries the height the engine asked for. -/
theorem decideProposal_height (a : AbciClient)
    (app : AbciCounterpartyClient) (height : Int) (txs : List Bytes)
    (mis : List Evidence) (block : Block)
    (h : decideProposal a app height txs mis = .ok block) :
    block.header.height = height := by
  unfold decideProposal at h
  cases hp : app.prepareProposalResp with
  | error e =>
    simp only [hp] at h
    exact Outcome.noConfusion h
  | ok mtxs =>
    simp only [hp] at h
    split at h
    · injection h with h
      subst h
      rfl
    · exact Outcome.noConfusion h

/-- The block produced by the round prefix is at the next height. -/
theorem prepareStage_block_height (a : AbciClient) (tx : Option Bytes)
    (proposer : Option Validator)
    (misb : List (Validator × MisbehaviourType)) (now1 now2 : Int)
    (pr : PrepareRes)
    (h : prepareStage a tx proposer misb now1 now2 = .ok pr) :
    pr.block.header.height = a.curState.lastBlockHeight + 1 := by
  unfold prepareStage at h
  obtain ⟨rc, h1, h⟩ := Outcome.bind_ok _ _ _ h
  obtain ⟨evs, h2, h⟩ := Outcome.bind_ok _ _ _ h
  obtain ⟨app, h3, h⟩ := Outcome.bind_ok _ _ _ h
  obtain ⟨block, h4, h⟩ := Outcome.bind_ok _ _ _ h
  obtain ⟨nps, h5, h⟩ := Outcome.bind_ok _ _ _ h
  obtain ⟨u, h6, h⟩ := Outcome.bind_ok _ _ _ h
  obtain ⟨votes, h7, h⟩ := Outcome.bind_ok _ _ _ h
  injection h with h
  subst h
  exact decideProposal_height _ _ _ _ _ _ h4

/-- `AddVote` never changes the validator set of the vote set. -/
theorem addVote_valSet (vs : VoteSet) (vote : Vote) (b : Bool)
    (vs2 : VoteSet) (h : vs.addVote vote = Except.ok (b, vs2)) :
    vs2.valSet = vs.valSet := by
  unfold VoteSet.addVote at h
  split at h
  · injection h with h
    injection h with h1 h2
    subst h2
    rfl
  · split at h
    · exact Except.noConfusion h
    · split at h
      · injection h with h
        injection h with h1 h2
        subst h2
        rfl
      · split at h
        · exact Except.noConfusion h
        · injection h with h
          injection h with h1 h2
          subst h2
          rfl

/-- The vote-adding loop never changes the validator set of the vote set. -/
theorem addVotes_valSet (l : List (Option Vote)) (vs vs2 : VoteSet)
    (h : addVotes vs l = .ok vs2) : vs2.valSet = vs.valSet := by
  induction l generalizing vs with
  | nil =>
    unfold addVotes at h
    injection h with h
    subst h
    rfl
  | cons ov rest ih =>
    cases ov with
    | none =>
      simp only [addVotes] at h
      exact ih vs h
    | some vote =>
      simp only [addVotes] at h
      cases hav : vs.addVote vote with
      | error e =>
        rw [hav] at h
        exact Outcome.noConfusion h
      | ok p =>
        obtain ⟨added, vs3⟩ := p
        rw [hav] at h
        cases added with
        | false =>
          simp only [if_false, Bool.false_eq_true] at h
          exact Outcome.noConfusion h
        | true =>
          simp only [if_true] at h
          rw [ih vs3 h]
          exact addVote_valSet vs vote true vs3 hav

/-- A commit extracted from a vote set carries its votes and implies the
strict 2/3 quorum over the set's total power. -/
theorem makeExtendedCommit_some (vs : VoteSet) (c : ExtendedCommit)
    (h : vs.makeExtendedCommit = some c) :
    2 * totalPower vs.valSet < 3 * commitPower vs.valSet vs.votes
    ∧ c.votes = vs.votes := by
  unfold VoteSet.makeExtendedCommit at h
  split at h
  · injection h with h
    subst h
    constructor
    · assumption
    · rfl
  · exact Option.noConfusion h

/-- A successful vote stage yields a commit whose tallied power is strictly
greater than 2/3 of the total power of the sorted current validator set. -/
theorem voteStage_quorum (a1 : AbciClient) (block : Block)
    (votes : List (Option Vote)) (commit : ExtendedCommit)
    (h : voteStage a1 block votes = .ok commit) :
    2 * totalPower a1.curState.validators
      < 3 * commitPower a1.curState.validators commit.votes := by
  unfold voteStage at h
  obtain ⟨u, h1, h⟩ := Outcome.bind_ok _ _ _ h
  obtain ⟨vs2, h2, h⟩ := Outcome.bind_ok _ _ _ h
  cases hmk : vs2.makeExtendedCommit with
  | none =>
    rw [hmk] at h
    exact Outcome.noConfusion h
  | some c =>
    rw [hmk] at h
    injection h with h
    subst h
    obtain ⟨hq, hv⟩ := makeExtendedCommit_some _ _ hmk
    have hvs : vs2.valSet = a1.curState.validators := addVotes_valSet _ _ _ h2
    rw [hvs, ← hv] at hq
    exact hq

/-- On success, `finishBlock` keeps the commit it was entered with. -/
theorem finishBlock_ok_lastCommit (a2 : AbciClient) (block : Block)
    (commit : ExtendedCommit) (rc : Option Nat) (r : RunBlockRes)
    (a3 : AbciClient) (h : finishBlock a2 block commit rc = (.ok r, a3)) :
    a3.lastCommit = a2.lastCommit := by
  unfold finishBlock at h
  split at h
  · injection h with h1 h2
    exact Outcome.noConfusion h1
  · split at h
    · injection h with h1 h2
      exact Outcome.noConfusion h1
    · split at h
      · injection h with h1 h2
        exact Outcome.noConfusion h1
      · injection h with h1 h2
        exact Outcome.noConfusion h1
      · split at h
        · injection h with h1 h2
          exact Outcome.noConfusion h1
        · split at h
          · injection h with h1 h2
            exact Outcome.noConfusion h1
          · split at h
            · injection h with h1 h2
              exact Outcome.noConfusion h1
            · injection h with h1 h2
              exact Outcome.noConfusion h1
            · injection h with h1 h2
              subst h2
              rfl

/-- `UpdateStateFromBlock` advances the height to the block's height. -/
theorem updateStateFromBlock_height (a : AbciClient) (blockId : BlockID)
    (block : Block) (fr : ResponseFinalizeBlock) (ns : State)
    (h : UpdateStateFromBlock a blockId block fr = Except.ok ns) :
    ns.lastBlockHeight = block.header.height := by
  unfold UpdateStateFromBlock at h
  split at h
  · exact Except.noConfusion h
  · split at h
    · exact Except.noConfusion h
    · split at h
      · exact Except.noConfusion h
      · injection h with h
        subst h
        rename_i newState hupd
        exact (updateState_ok_fields _ _ _ _ _ _ hupd).1

/-- When `finishBlock` returns an error, the chain state is either still the
one it was entered with, or — when the error came from the final Commit
fan-out — already the advanced state at the new block's height. -/
theorem finishBlock_err_state (a2 : AbciClient) (block : Block)
    (commit : ExtendedCommit) (rc : Option Nat) (e : String)
    (a3 : AbciClient) (h : finishBlock a2 block commit rc = (.err e, a3)) :
    a3.curState = a2.curState
    ∨ a3.curState.lastBlockHeight = block.header.height := by
  unfold finishBlock at h
  split at h
  · injection h with h1 h2
    subst h2
    exact Or.inl rfl
  · split at h
    · injection h with h1 h2
      subst h2
      exact Or.inl rfl
    · split at h
      · injection h with h1 h2
        subst h2
        exact Or.inl rfl
      · injection h with h1 h2
        exact Outcome.noConfusion h1
      · split at h
        · injection h with h1 h2
          subst h2
          exact Or.inl rfl
        · split at h
          · injection h with h1 h2
            subst h2
            exact Or.inl rfl
          · rename_i newState hupd
            split at h
            · injection h with h1 h2
              subst h2
              exact Or.inr (updateStateFromBlock_height _ _ _ _ _ hupd)
            · injection h with h1 h2
              exact Outcome.noConfusion h1
            · injection h with h1 h2
              exact Outcome.noConfusion h1

/-- Inserting into the sorted list contributes exactly the new element to any
mapped sum. -/
theorem insert_map_sum (a : AbciClient) (f : Validator → Int) (v : Validator)
    (l : List Validator) :
    ((insertValByNet a v l).map f).sum = f v + (l.map f).sum := by
  induction l with
  | nil => simp [insertValByNet]
  | cons w ws ih =>
    simp only [insertValByNet]
    split
    · simp
    · simp only [List.map_cons, List.sum_cons, ih]
      ring

/-- Sorting the validator slice preserves any mapped sum. -/
theorem sort_map_sum (a : AbciClient) (f : Validator → Int)
    (l : List Validator) :
    ((sortValsByNet a l).map f).sum = (l.map f).sum := by
  induction l with
  | nil => rfl
  | cons v vs ih =>
    simp only [sortValsByNet, insert_map_sum, ih, List.map_cons,
      List.sum_cons]

/-- Total power of a filtered set as a mapped sum over the whole set. -/
theorem totalPower_filter (p : Validator → Bool) (l : List Validator) :
    totalPower (l.filter p)
      = (l.map fun v => if p v then v.power else 0).sum := by
  induction l with
  | nil => rfl
  | cons v vs ih =>
    cases hp : p v with
    | false =>
      simp [List.filter_cons, hp, ih]
    | true =>
      simp [List.filter_cons, hp, totalPower] at ih ⊢
      omega

/-- Sorting the validator slice preserves its total power. -/
theorem totalPower_sort (a : AbciClient) (l : List Validator) :
    totalPower (sortValsByNet a l) = totalPower l :=
  sort_map_sum a (fun v => v.power) l

/-- Sorting the validator slice preserves the power tallied by a commit. -/
theorem commitPower_sort (a : AbciClient) (l : List Validator)
    (votes : List Vote) :
    commitPower (sortValsByNet a l) votes = commitPower l votes := by
  unfold commitPower
  rw [totalPower_filter, totalPower_filter]
  exact sort_map_sum a _ l

/-- C2: every commit the engine accepts in a successful round — the
ExtendedCommit stored in LastCommit — carries votes whose combined voting
power is strictly greater than 2/3 of the total power of the validator set
active at that height (CurState.Validators at the start of the round). -/
theorem accepted_commit_has_quorum (a : AbciClient) (tx : Option Bytes)
    (blockTime : Int) (proposer : Option Validator)
    (misb : List (Validator × MisbehaviourType)) (now1 now2 : Int)
    (r : RunBlockRes) (a2 : AbciClient)
    (h : RunBlockWithTimeAndProposer a tx blockTime proposer misb now1 now2
          = (.ok r, a2)) :
    2 * totalPower a.curState.validators
      < 3 * commitPower a.curState.validators a2.lastCommit.votes := by
  unfold RunBlockWithTimeAndProposer at h
  cases hps : prepareStage a tx proposer misb now1 now2 with
  | err e =>
    simp only [hps] at h
    injection h with h1 h2
    exact Outcome.noConfusion h1
  | panicked e =>
    simp only [hps] at h
    injection h with h1 h2
    exact Outcome.noConfusion h1
  | ok pr =>
    simp only [hps] at h
    split at h
    · split at h
      · injection h with h1 h2
        exact Outcome.noConfusion h1
      · injection h with h1 h2
        exact Outcome.noConfusion h1
      · rename_i commit hvs
        have hlc := finishBlock_ok_lastCommit _ _ _ _ _ _ h
        have hq := voteStage_quorum _ _ _ _ hvs
        dsimp only at hq
        rw [totalPower_sort, commitPower_sort] at hq
        rw [hlc]
        exact hq
    · injection h with h1 h2
      exact Outcome.noConfusion h1

/-- Closed instance of the quorum theorem at the successful example round. -/
theorem accepted_commit_has_quorum_witness :
    2 * totalPower exAbci.curState.validators
      < 3 * commitPower exAbci.curState.validators
          exAbciOkPost.lastCommit.votes :=
  accepted_commit_has_quorum exAbci none 0 (some exValA) [] 0 0 exOkRes
    exAbciOkPost (by rfl)

/-- C1 (amended): when a round returns an error, the chain state is
unchanged for every failure up to vote collection; from the vote-extension
verification step on, the validator slice of CurState may additionally have
been reordered in place (sorted by backend network address); and when the
final Commit fan-out fails, the error is returned with CurState already
advanced to the new block's height. -/
theorem round_error_state_bound (a : AbciClient) (tx : Option Bytes)
    (blockTime : Int) (proposer : Option Validator)
    (misb : List (Validator × MisbehaviourType)) (now1 now2 : Int)
    (e : String) (a2 : AbciClient)
    (h : RunBlockWithTimeAndProposer a tx blockTime proposer misb now1 now2
          = (.err e, a2)) :
    a2.curState = a.curState
    ∨ a2.curState = { a.curState with
        validators := sortValsByNet a a.curState.validators }
    ∨ a2.curState.lastBlockHeight = a.curState.lastBlockHeight + 1 := by
  unfold RunBlockWithTimeAndProposer at h
  cases hps : prepareStage a tx proposer misb now1 now2 with
  | err e0 =>
    simp only [hps] at h
    injection h with h1 h2
    subst h2
    exact Or.inl rfl
  | panicked e0 =>
    simp only [hps] at h
    injection h with h1 h2
    exact Outcome.noConfusion h1
  | ok pr =>
    simp only [hps] at h
    split at h
    · split at h
      · injection h with h1 h2
        subst h2
        exact Or.inr (Or.inl rfl)
      · injection h with h1 h2
        exact Outcome.noConfusion h1
      · rename_i commit hvs
        rcases finishBlock_err_state _ _ _ _ _ _ h with hc | hh
        · exact Or.inr (Or.inl hc)
        · refine Or.inr (Or.inr ?_)
          rw [hh]
          exact prepareStage_block_height _ _ _ _ _ _ _ hps
    · injection h with h1 h2
      exact Outcome.noConfusion h1

/-- Closed instance of the amended C1 theorem at the round whose final
Commit call fails. -/
theorem round_error_state_bound_witness :
    exAbciFailPost.curState = exAbciCommitFail.curState
    ∨ exAbciFailPost.curState = { exAbciCommitFail.curState with
        validators := sortValsByNet exAbciCommitFail
          exAbciCommitFail.curState.validators }
    ∨ exAbciFailPost.curState.lastBlockHeight
        = exAbciCommitFail.curState.lastBlockHeight + 1 :=
  round_error_state_bound exAbciCommitFail none 0 (some exValA) [] 0 0
    "commit failed" exAbciFailPost (by rfl)

/-- C1 counterexample: a round whose final Commit fan-out fails returns an
error, yet CurState is not the state from before the call — it has already
advanced to the new height. -/
theorem round_error_state_changed_counterexample :
    (RunBlockWithTimeAndProposer exAbciCommitFail none 0 (some exValA) []
        0 0).1 = .err "commit failed"
    ∧ exAbciFailPost.curState ≠ exAbciCommitFail.curState
    ∧ exAbciFailPost.curState.lastBlockHeight
        = exAbciCommitFail.curState.lastBlockHeight + 1 := by
  refine ⟨rfl, by decide, by rfl⟩

end CometMock
